import Mathlib

/-!
Verification of the signature-capture protocol and image pipeline of
`src/signature_capture/signature_capture.py`.

The embedding models:
  * the Python string and integer primitives the code uses (`str.split`,
    `str.replace`, `str.strip` via explicit structural functions on
    `List Char`; `int(s)`, `int(s, 16)`; floor division `//`, modulo `%`,
    arithmetic shifts and masking on arbitrary-precision integers);
  * `SignatureProcessor.process_pixel_data` (painting, the non-black counter,
    emptiness detection, and the output dimensions of the final resize);
  * the line-processing loop of `SignatureCapture._capture_once` as a step
    function `stepLine` over an explicit state, iterated by `runCapture`;
  * the round loop of `SignatureCapture.capture_signature` in interactive
    mode, as `captureSignatureRounds`.

Pure I/O collaborators (the serial port, PIL's Gaussian blur and Lanczos
resampling kernels, PNG encoding) are external to the repository; only their
interface facts used by the code are modelled (a line list standing for the
stream of non-empty lines `read_line` yields, with list exhaustion standing
for `read_line` raising its timeout; the blur preserving dimensions and
`img.resize((width * 2, height * 2))` producing an image of exactly those
dimensions). The painted buffer is modelled as a total function from
coordinates to RGB triples, exactly as the code writes `pixels[x, y]`.
-/

namespace SigCap

/-- Embedding of the exception kinds raised by the capture code
(`InvalidDataError`, `EmptySignatureError`, `TimeoutError`, `SaveImageError`).
Messages are not modelled; only the kind of each error is. -/
inductive CaptureError where
  | invalidData
  | emptySignature
  | timeout
  | saveImage
deriving DecidableEq, Repr

/-- Embedding of Python's `line.startswith(pat)`: `pat` is a prefix of the
character sequence of `line`. -/
def startsWithStr (line pat : String) : Bool :=
  pat.data.isPrefixOf line.data

/-- Embedding of Python's `str.split(sep)` for a one-character separator:
splitting an empty string yields one empty field, and every occurrence of
the separator starts a new field. -/
def splitOnChar (sep : Char) : List Char → List (List Char)
  | [] => [[]]
  | c :: cs =>
    if c = sep then [] :: splitOnChar sep cs
    else
      match splitOnChar sep cs with
      | f :: fs => (c :: f) :: fs
      | [] => [[c]]

/-- Drop leading whitespace characters, one half of Python's `str.strip`. -/
def dropLeadingWS : List Char → List Char
  | [] => []
  | c :: cs => if c.isWhitespace then dropLeadingWS cs else c :: cs

/-- Embedding of Python's `str.strip()`: whitespace removed from both ends
(ASCII whitespace; the exotic Unicode space characters Python also strips
never occur in the protocol). -/
def stripChars (cs : List Char) : List Char :=
  ((dropLeadingWS ((dropLeadingWS cs).reverse)).reverse)

/-- Embedding of Python's `line.replace(pat, "")` for a non-empty pattern:
every non-overlapping occurrence of `pat`, scanning left to right, is
removed.  `fuel` bounds the recursion and is instantiated with the length of
the scanned list, which suffices because every step consumes at least one
character; the code only ever calls this with the non-empty pattern
`"START_SAVING:"`. -/
def removePat (pat : List Char) : Nat → List Char → List Char
  | _, [] => []
  | 0, cs => cs
  | fuel + 1, c :: cs =>
    if pat.isPrefixOf (c :: cs) then
      removePat pat fuel (List.drop pat.length (c :: cs))
    else c :: removePat pat fuel cs

/-- Python's `line.replace("START_SAVING:", "")` as used to extract the
serial number. -/
def replaceStartSaving (line : String) : String :=
  String.mk (removePat "START_SAVING:".data line.data.length line.data)

/-- Decimal digit value of a character, as Python's `int(s)` accepts digits. -/
def decDigitVal (c : Char) : Option Nat :=
  if '0' ≤ c ∧ c ≤ '9' then some (c.toNat - 48) else none

/-- Hexadecimal digit value of a character, as Python's `int(s, 16)` accepts
digits (both letter cases). -/
def hexDigitVal (c : Char) : Option Nat :=
  if '0' ≤ c ∧ c ≤ '9' then some (c.toNat - 48)
  else if 'a' ≤ c ∧ c ≤ 'f' then some (c.toNat - 87)
  else if 'A' ≤ c ∧ c ≤ 'F' then some (c.toNat - 55)
  else none

/-- Accumulate digit values in the given base; fails on any non-digit. -/
def parseDigitsAux (digitVal : Char → Option Nat) (base : Nat) :
    List Char → Nat → Option Nat
  | [], acc => some acc
  | c :: cs, acc =>
    match digitVal c with
    | some d => parseDigitsAux digitVal base cs (acc * base + d)
    | none => none

/-- Parse a non-empty run of digits in the given base. -/
def parseDigits (digitVal : Char → Option Nat) (base : Nat)
    (cs : List Char) : Option Nat :=
  if cs.isEmpty then none else parseDigitsAux digitVal base cs 0

/-- Embedding of Python's built-in `int(s)`: surrounding whitespace is
stripped, an optional single `+`/`-` sign precedes a non-empty run of
decimal digits.  (Digit-grouping underscores, which the protocol never
produces, are not modelled.) -/
def pyInt (cs : List Char) : Option Int :=
  match stripChars cs with
  | '-' :: ds => (parseDigits decDigitVal 10 ds).map (fun n => -(n : Int))
  | '+' :: ds => (parseDigits decDigitVal 10 ds).map (fun n => (n : Int))
  | ds => (parseDigits decDigitVal 10 ds).map (fun n => (n : Int))

/-- Drop an optional `0x`/`0X` prefix, as Python's `int(s, 16)` allows. -/
def strip0x : List Char → List Char
  | '0' :: 'x' :: cs => cs
  | '0' :: 'X' :: cs => cs
  | cs => cs

/-- Embedding of Python's built-in `int(s, 16)`: surrounding whitespace
stripped, optional sign, optional `0x` prefix, non-empty run of hexadecimal
digits. -/
def pyIntHex (cs : List Char) : Option Int :=
  match stripChars cs with
  | '-' :: ds => (parseDigits hexDigitVal 16 (strip0x ds)).map (fun n => -(n : Int))
  | '+' :: ds => (parseDigits hexDigitVal 16 (strip0x ds)).map (fun n => (n : Int))
  | ds => (parseDigits hexDigitVal 16 (strip0x ds)).map (fun n => (n : Int))

/-- Embedding of the RGB565 decoding in `process_pixel_data`:
`r = ((color >> 11) & 0x1F) * 255 // 31`,
`g = ((color >> 5) & 0x3F) * 255 // 63`,
`b = (color & 0x1F) * 255 // 31`.
Python's `>> k` is floor division by `2^k` (`Int.fdiv`), `& (2^k - 1)` is
`% 2^k` with Python's nonnegative modulo (`Int.emod`, Lean's `%` on `Int`),
and `//` is floor division; this matches Python on every integer, including
negative ones. -/
def decodeColor (color : Int) : Int × Int × Int :=
  (((color.fdiv 2048) % 32 * 255).fdiv 31,
   ((color.fdiv 32) % 64 * 255).fdiv 63,
   (color % 32 * 255).fdiv 31)

/-- State of the line loop in `SignatureCapture._capture_once`: the local
variables `capturing`, `pixel_data`, `width`, `height`, `serial_number`.
A pixel sample is `(x, y, color)` as appended by the code. -/
structure OnceState where
  capturing : Bool
  pixelData : List (Int × Int × Int)
  width : Int
  height : Int
  serialNumber : String
deriving DecidableEq, Repr

/-- Initial state of `_capture_once`: not capturing, no samples, the
session's default dimensions, empty serial. -/
def initOnceState (defaultWidth defaultHeight : Int) : OnceState :=
  { capturing := false, pixelData := [], width := defaultWidth,
    height := defaultHeight, serialNumber := "" }

/-- A completed capture as handed to `process_pixel_data` when `END_SAVING`
is accepted: the `width`, `height`, `pixel_data` and `serial_number`
arguments of that call. -/
structure Frame where
  width : Int
  height : Int
  samples : List (Int × Int × Int)
  serialNumber : String
deriving DecidableEq, Repr

/-- Outcome of processing one line in `_capture_once`: keep looping with an
updated state, leave the loop with a completed frame (the `END_SAVING`
branch reaching the `process_pixel_data` call), or raise an error. -/
inductive StepResult where
  | cont (s : OnceState)
  | done (f : Frame)
  | fail (e : CaptureError)
deriving DecidableEq, Repr

instance {ε α : Type} [DecidableEq ε] [DecidableEq α] :
    DecidableEq (Except ε α) := fun a b =>
  match a, b with
  | .ok x, .ok y =>
    if h : x = y then .isTrue (congrArg Except.ok h)
    else .isFalse (fun hh => h (Except.ok.inj hh))
  | .error x, .error y =>
    if h : x = y then .isTrue (congrArg Except.error h)
    else .isFalse (fun hh => h (Except.error.inj hh))
  | .ok _, .error _ => .isFalse (fun hh => Except.noConfusion hh)
  | .error _, .ok _ => .isFalse (fun hh => Except.noConfusion hh)

/-- One iteration of the `while True` loop of `_capture_once` on a line
already returned by `read_line`, mirroring the Python branch order:
the `if line:` truthiness test (an empty line falls to the
`raise TimeoutError` branch), then `START_SAVING:` (serial set via
`line.replace`, empty serial rejected), then `END_SAVING and capturing`
(dimension check, then emptiness check, then the completed frame), then,
when capturing, `DIM:` parsing (`line[4:].split(",")`, exactly two fields,
both `int(...)`, both positive) or pixel parsing (`line.split(",")`, exactly
three fields, decimal `x`,`y`, hexadecimal color, appended unchecked), and
otherwise the line is ignored. -/
def stepLine (s : OnceState) (line : String) : StepResult :=
  if line = "" then .fail .timeout
  else if startsWithStr line "START_SAVING:" then
    if replaceStartSaving line = "" then .fail .invalidData
    else .cont { capturing := true, pixelData := [], width := s.width,
                 height := s.height, serialNumber := replaceStartSaving line }
  else if line = "END_SAVING" ∧ s.capturing = true then
    if s.width ≤ 0 ∨ s.height ≤ 0 then .fail .invalidData
    else if s.pixelData = [] then .fail .emptySignature
    else .done ⟨s.width, s.height, s.pixelData, s.serialNumber⟩
  else if s.capturing = true then
    if startsWithStr line "DIM:" then
      match splitOnChar ',' (line.data.drop 4) with
      | [a, b] =>
        match pyInt a, pyInt b with
        | some w, some h =>
          if w ≤ 0 ∨ h ≤ 0 then .fail .invalidData
          else .cont { s with width := w, height := h }
        | some _, none => .fail .invalidData
        | none, _ => .fail .invalidData
      | _ => .fail .invalidData
    else
      match splitOnChar ',' line.data with
      | [a, b, c] =>
        match pyInt a, pyInt b, pyIntHex c with
        | some x, some y, some color =>
          .cont { s with pixelData := s.pixelData ++ [(x, y, color)] }
        | some _, some _, none => .fail .invalidData
        | some _, none, _ => .fail .invalidData
        | none, _, _ => .fail .invalidData
      | _ => .fail .invalidData
  else .cont s

/-- The line loop of `_capture_once` over the finite list of non-empty lines
the serial port will yield this round; exhausting the list models
`read_line` raising its `TimeoutError`.  Returns the completed frame at an
accepted `END_SAVING` (the code then calls `process_pixel_data` and breaks),
or the raised error. -/
def runCapture (s : OnceState) : List String → Except CaptureError Frame
  | [] => .error .timeout
  | l :: ls =>
    match stepLine s l with
    | .cont s' => runCapture s' ls
    | .done f => .ok f
    | .fail e => .error e

/-- The painting loop of `process_pixel_data`: for each `(x, y, color)` in
order, if `0 <= x < width and 0 <= y < height` the decoded color is written
to the buffer (overwriting any earlier write at `(x, y)`) and the
`non_black_pixels` counter is incremented when the decoded color differs
from `(0, 0, 0)`; otherwise `InvalidDataError` is raised at that sample. -/
def paintLoop (width height : Int) (buf : Int × Int → Int × Int × Int)
    (count : Nat) :
    List (Int × Int × Int) →
      Except CaptureError ((Int × Int → Int × Int × Int) × Nat)
  | [] => .ok (buf, count)
  | (x, y, color) :: rest =>
    if 0 ≤ x ∧ x < width ∧ 0 ≤ y ∧ y < height then
      paintLoop width height
        (fun p => if p = (x, y) then decodeColor color else buf p)
        (if decodeColor color ≠ (0, 0, 0) then count + 1 else count) rest
    else .error .invalidData

/-- Result of a successful `process_pixel_data` call: the painted
`width × height` buffer (before the Gaussian blur), the buffer dimensions,
the exact dimensions `(width * 2, height * 2)` of the image returned by
`img.resize`, and the serial number used for the saved filename.  The pixel
contents of the blurred and resampled image are produced by PIL (an external
collaborator) and are not modelled. -/
structure ProcResult where
  buf : Int × Int → Int × Int × Int
  width : Int
  height : Int
  scaledWidth : Int
  scaledHeight : Int
  serialNumber : String

/-- Embedding of `SignatureProcessor.process_pixel_data`: reject an empty
sample list or non-positive dimensions with `InvalidDataError`; paint the
samples into a buffer initialized to black, counting non-black writes and
rejecting out-of-range samples; raise `EmptySignatureError` when the counter
is zero; otherwise blur, resize to `(width * 2, height * 2)` and save. -/
def processPixelData (width height : Int) (pixelData : List (Int × Int × Int))
    (serialNumber : String) : Except CaptureError ProcResult :=
  if pixelData = [] ∨ width ≤ 0 ∨ height ≤ 0 then .error .invalidData
  else
    match paintLoop width height (fun _ => (0, 0, 0)) 0 pixelData with
    | .error e => .error e
    | .ok (buf, nonBlack) =>
      if nonBlack = 0 then .error .emptySignature
      else .ok ⟨buf, width, height, width * 2, height * 2, serialNumber⟩

/-- One whole round, `SignatureCapture._capture_once`: run the line loop
from the initial state and, on an accepted `END_SAVING`, process the
completed frame. -/
def captureOnce (defaultWidth defaultHeight : Int) (lines : List String) :
    Except CaptureError ProcResult :=
  match runCapture (initOnceState defaultWidth defaultHeight) lines with
  | .ok f => processPixelData f.width f.height f.samples f.serialNumber
  | .error e => .error e

/-- The interactive round loop of `SignatureCapture.capture_signature`.
Each list entry is one user interaction at the prompt: `none` is the user
typing `salir` (the loop breaks cleanly), `some lines` is the user pressing
Enter followed by the lines the serial port yields that round.  A round
ending in an error is the last round executed: every error raised by
`_capture_once` (or by `process_pixel_data` under it) propagates out of the
`while True` loop to the `except` clauses that sit outside it, is reported,
and the method returns after closing the connection. -/
def captureSignatureRounds (defaultWidth defaultHeight : Int) :
    List (Option (List String)) → List (Except CaptureError ProcResult)
  | [] => []
  | none :: _ => []
  | some lines :: rest =>
    match captureOnce defaultWidth defaultHeight lines with
    | .ok r => .ok r :: captureSignatureRounds defaultWidth defaultHeight rest
    | .error e => [.error e]

/-- Whether a round result is a success (no exception raised). -/
def isSuccess (res : Except CaptureError ProcResult) : Bool :=
  match res with
  | .ok _ => true
  | .error _ => false

/-- The error kind of a round result, `none` on success. -/
def errorKind (res : Except CaptureError ProcResult) : Option CaptureError :=
  match res with
  | .ok _ => none
  | .error e => some e

/-- The buffer of a processing result, observed at one coordinate;
`none` when processing failed. -/
def procBufAt (res : Except CaptureError ProcResult) (x y : Int) :
    Option (Int × Int × Int) :=
  match res with
  | .ok r => some (r.buf (x, y))
  | .error _ => none

/-- The post-resize dimensions of a processing result; `none` when
processing failed. -/
def procScaledDims (res : Except CaptureError ProcResult) :
    Option (Int × Int) :=
  match res with
  | .ok r => some (r.scaledWidth, r.scaledHeight)
  | .error _ => none

/-- Color of the last sample of the list written at coordinate `(x, y)`,
if any: the specification of last-write-wins painting. -/
def lastColorAt (x y : Int) : List (Int × Int × Int) → Option Int
  | [] => none
  | (px, py, c) :: rest =>
    match lastColorAt x y rest with
    | some c' => some c'
    | none => if (x, y) = (px, py) then some c else none

/-- Decoded color of an optional sample color, black when absent. -/
def colorOrBlack : Option Int → Int × Int × Int
  | some c => decodeColor c
  | none => (0, 0, 0)

lemma natCast_fdiv (m n : Nat) :
    ((m : Int)).fdiv ((n : Int)) = ((m / n : Nat) : Int) :=
  (Int.ofNat_fdiv m n).symm

lemma decodeColor_natCast (c : Nat) :
    decodeColor (c : Int) =
      (((c / 2048 % 32 * 255 / 31 : Nat) : Int),
       ((c / 32 % 64 * 255 / 63 : Nat) : Int),
       ((c % 32 * 255 / 31 : Nat) : Int)) := by
  unfold decodeColor
  rw [show (2048 : Int) = ((2048 : Nat) : Int) from by norm_cast,
      show (32 : Int) = ((32 : Nat) : Int) from by norm_cast,
      show (64 : Int) = ((64 : Nat) : Int) from by norm_cast,
      show (255 : Int) = ((255 : Nat) : Int) from by norm_cast,
      show (31 : Int) = ((31 : Nat) : Int) from by norm_cast,
      show (63 : Int) = ((63 : Nat) : Int) from by norm_cast]
  simp only [natCast_fdiv, ← Int.ofNat_emod, ← Nat.cast_mul]

lemma shift11_mask (c : Nat) : c >>> 11 &&& 31 = c / 2048 % 32 := by
  have h := Nat.and_pow_two_sub_one_eq_mod (c >>> 11) 5
  norm_num at h
  rw [h, Nat.shiftRight_eq_div_pow]

lemma shift5_mask (c : Nat) : c >>> 5 &&& 63 = c / 32 % 64 := by
  have h := Nat.and_pow_two_sub_one_eq_mod (c >>> 5) 6
  norm_num at h
  rw [h, Nat.shiftRight_eq_div_pow]

lemma mask5 (c : Nat) : c &&& 31 = c % 32 := by
  have h := Nat.and_pow_two_sub_one_eq_mod c 5
  norm_num at h
  exact h

lemma scale_le_255 (a bound : Nat) (h : a ≤ bound) (hb : 0 < bound) :
    a * 255 / bound ≤ 255 := by
  calc a * 255 / bound ≤ bound * 255 / bound :=
        Nat.div_le_div_right (Nat.mul_le_mul_right 255 h)
    _ = 255 := Nat.mul_div_cancel_left 255 hb

/-- C5: for every 16-bit color `c`, the decoder computes
`red = ((c >> 11) & 0x1F) * 255 / 31`, `green = ((c >> 5) & 0x3F) * 255 / 63`
and `blue = (c & 0x1F) * 255 / 31` with integer truncation, every channel
lies in `[0, 255]`, and the spot values
`decode(0xF800) = (255,0,0)`, `decode(0x07E0) = (0,255,0)`,
`decode(0x001F) = (0,0,255)`, `decode(0x0000) = (0,0,0)` hold.
(Determinism is inherent: `decodeColor` is a function.) -/
theorem c5_color_decoder (c : Nat) (hc : c < 65536) :
    decodeColor (c : Int) =
      ((((c >>> 11 &&& 0x1F) * 255 / 31 : Nat) : Int),
       (((c >>> 5 &&& 0x3F) * 255 / 63 : Nat) : Int),
       (((c &&& 0x1F) * 255 / 31 : Nat) : Int)) ∧
    (0 ≤ (decodeColor (c : Int)).1 ∧ (decodeColor (c : Int)).1 ≤ 255) ∧
    (0 ≤ (decodeColor (c : Int)).2.1 ∧ (decodeColor (c : Int)).2.1 ≤ 255) ∧
    (0 ≤ (decodeColor (c : Int)).2.2 ∧ (decodeColor (c : Int)).2.2 ≤ 255) ∧
    decodeColor 0xF800 = (255, 0, 0) ∧
    decodeColor 0x07E0 = (0, 255, 0) ∧
    decodeColor 0x001F = (0, 0, 255) ∧
    decodeColor 0x0000 = (0, 0, 0) := by
  have hr : c / 2048 % 32 ≤ 31 := Nat.le_of_lt_succ (Nat.mod_lt _ (by norm_num))
  have hg : c / 32 % 64 ≤ 63 := Nat.le_of_lt_succ (Nat.mod_lt _ (by norm_num))
  have hb : c % 32 ≤ 31 := Nat.le_of_lt_succ (Nat.mod_lt _ (by norm_num))
  refine ⟨?_, ?_, ?_, ?_, by decide, by decide, by decide, by decide⟩
  · rw [decodeColor_natCast, shift11_mask, shift5_mask, mask5]
  · rw [decodeColor_natCast]
    refine ⟨Int.ofNat_nonneg _, ?_⟩
    show ((c / 2048 % 32 * 255 / 31 : Nat) : Int) ≤ 255
    exact_mod_cast scale_le_255 _ 31 hr (by norm_num)
  · rw [decodeColor_natCast]
    refine ⟨Int.ofNat_nonneg _, ?_⟩
    show ((c / 32 % 64 * 255 / 63 : Nat) : Int) ≤ 255
    exact_mod_cast scale_le_255 _ 63 hg (by norm_num)
  · rw [decodeColor_natCast]
    refine ⟨Int.ofNat_nonneg _, ?_⟩
    show ((c % 32 * 255 / 31 : Nat) : Int) ≤ 255
    exact_mod_cast scale_le_255 _ 31 hb (by norm_num)

/-- Witness for C5 at the concrete 16-bit color `0xF800 = 63488`. -/
theorem c5_witness :
    decodeColor ((63488 : Nat) : Int) =
      (((((63488 : Nat) >>> 11 &&& 0x1F) * 255 / 31 : Nat) : Int),
       ((((63488 : Nat) >>> 5 &&& 0x3F) * 255 / 63 : Nat) : Int),
       ((((63488 : Nat) &&& 0x1F) * 255 / 31 : Nat) : Int)) ∧
    decodeColor 0xF800 = (255, 0, 0) :=
  ⟨(c5_color_decoder 63488 (by norm_num)).1,
   (c5_color_decoder 63488 (by norm_num)).2.2.2.2.1⟩

/-- C6: when `END_SAVING` arrives while capturing, the code first fails with
`InvalidDataError` if width or height is non-positive; otherwise, with no
accumulated pixel samples it fails with `EmptySignatureError` (a distinct
error kind from `InvalidDataError`); otherwise it completes carrying the
finished frame. -/
theorem c6_end_saving_checks (s : OnceState) (hc : s.capturing = true) :
    ((s.width ≤ 0 ∨ s.height ≤ 0) →
      stepLine s "END_SAVING" = .fail .invalidData) ∧
    (0 < s.width → 0 < s.height → s.pixelData = [] →
      stepLine s "END_SAVING" = .fail .emptySignature) ∧
    (0 < s.width → 0 < s.height → s.pixelData ≠ [] →
      stepLine s "END_SAVING" =
        .done ⟨s.width, s.height, s.pixelData, s.serialNumber⟩) ∧
    CaptureError.emptySignature ≠ CaptureError.invalidData := by
  have hne : ¬(("END_SAVING" : String) = "") := by decide
  have hsw : ¬(startsWithStr "END_SAVING" "START_SAVING:" = true) := by decide
  refine ⟨?_, ?_, ?_, by decide⟩
  · intro h
    unfold stepLine
    rw [if_neg hne, if_neg hsw, if_pos ⟨rfl, hc⟩, if_pos h]
  · intro hw hh hpd
    unfold stepLine
    rw [if_neg hne, if_neg hsw, if_pos ⟨rfl, hc⟩, if_neg (by omega), if_pos hpd]
  · intro hw hh hpd
    unfold stepLine
    rw [if_neg hne, if_neg hsw, if_pos ⟨rfl, hc⟩, if_neg (by omega), if_neg hpd]

/-- Witness for C6: the three `END_SAVING` outcomes at concrete states. -/
theorem c6_witness :
    stepLine ⟨true, [(0, 0, 63488)], 2, 2, "A"⟩ "END_SAVING" =
        .done ⟨2, 2, [(0, 0, 63488)], "A"⟩ ∧
    stepLine ⟨true, [], 2, 2, "A"⟩ "END_SAVING" = .fail .emptySignature ∧
    stepLine ⟨true, [], 0, 2, "A"⟩ "END_SAVING" = .fail .invalidData :=
  ⟨(c6_end_saving_checks _ rfl).2.2.1 (by norm_num) (by norm_num) (by decide),
   (c6_end_saving_checks _ rfl).2.1 (by norm_num) (by norm_num) rfl,
   (c6_end_saving_checks _ rfl).1 (Or.inl (by norm_num))⟩

/-- C10: a second `START_SAVING:<serial2>` while capturing discards the
accumulated samples and restarts recording `serial2`, but leaves the width
and height (possibly set by an earlier `DIM:` line) unchanged. -/
theorem c10_restart_keeps_dims (s : OnceState) (line : String)
    (hc : s.capturing = true)
    (hp : startsWithStr line "START_SAVING:" = true)
    (hs : replaceStartSaving line ≠ "") :
    stepLine s line =
      .cont ⟨true, [], s.width, s.height, replaceStartSaving line⟩ := by
  have hne : ¬(line = "") := by
    intro h
    subst h
    exact absurd hp (by decide)
  unfold stepLine
  rw [if_neg hne, if_pos hp, if_neg hs]

/-- Witness for C10: restarting with serial `NEW` in a state whose
dimensions were previously set to 7 × 9 keeps those dimensions. -/
theorem c10_witness :
    stepLine ⟨true, [(0, 0, 1)], 7, 9, "OLD"⟩ "START_SAVING:NEW" =
      .cont ⟨true, [], 7, 9, "NEW"⟩ := by
  have h := c10_restart_keeps_dims ⟨true, [(0, 0, 1)], 7, 9, "OLD"⟩
    "START_SAVING:NEW" rfl (by decide) (by decide)
  rw [show replaceStartSaving "START_SAVING:NEW" = "NEW" from by decide] at h
  exact h

/-- C3 counterexample: a round whose first line is `END_SAVING` (received in
Idle) does not fail with `InvalidDataError` — the line is silently ignored
and the round goes on to succeed. -/
theorem c3_counterexample :
    isSuccess (captureOnce 100 100
      ["END_SAVING", "START_SAVING:A", "DIM:1,1", "0,0,F800", "END_SAVING"]) =
      true := by decide

/-- C3 (amended): an `END_SAVING` line received while not capturing is
silently ignored like any other non-`START_SAVING:` line in Idle — the state
is unchanged and the round continues. -/
theorem c3_end_saving_ignored_in_idle (s : OnceState)
    (hc : s.capturing = false) :
    stepLine s "END_SAVING" = .cont s := by
  unfold stepLine
  rw [if_neg (by decide : ¬(("END_SAVING" : String) = "")),
      if_neg (by decide : ¬(startsWithStr "END_SAVING" "START_SAVING:" = true)),
      if_neg (fun hand => by rw [hc] at hand; exact Bool.noConfusion hand.2),
      if_neg (by rw [hc]; exact Bool.false_ne_true)]

/-- Witness for C3 (amended) at the initial state of a round. -/
theorem c3_witness :
    stepLine (initOnceState 100 100) "END_SAVING" =
      .cont (initOnceState 100 100) :=
  c3_end_saving_ignored_in_idle _ rfl

/-- C2 counterexample: in interactive mode, after a round that times out
(no line arrives), the loop does not continue — the subsequent round, which
would succeed on its own, is never executed; the result list holds only the
timeout. -/
theorem c2_counterexample :
    captureSignatureRounds 100 100
        [some [], some ["START_SAVING:A", "DIM:1,1", "0,0,F800", "END_SAVING"]] =
      [.error .timeout] ∧
    isSuccess (captureOnce 100 100
      ["START_SAVING:A", "DIM:1,1", "0,0,F800", "END_SAVING"]) = true :=
  ⟨rfl, by decide⟩

/-- C2 (amended): a `TimeoutError` in a round is caught by the `except`
clause outside the `while` loop: it is reported and terminates the whole
interactive loop, so no subsequent round executes. -/
theorem c2_timeout_ends_loop (defaultWidth defaultHeight : Int)
    (lines : List String) (rest : List (Option (List String)))
    (h : captureOnce defaultWidth defaultHeight lines = .error .timeout) :
    captureSignatureRounds defaultWidth defaultHeight (some lines :: rest) =
      [.error .timeout] := by
  unfold captureSignatureRounds
  rw [h]

/-- Witness for C2 (amended): a first round yielding no lines times out and
ends the loop even though another round is queued. -/
theorem c2_witness :
    captureSignatureRounds 100 100
        (some [] ::
          [some ["START_SAVING:B", "DIM:1,1", "0,0,F800", "END_SAVING"]]) =
      [.error .timeout] :=
  c2_timeout_ends_loop 100 100 [] _ rfl

/-- C1 counterexample: a well-formed pixel line out of range of the default
100 × 100 dimensions (no `DIM` has arrived yet) does not fail the round at
that line: a later `DIM:200,200` makes the final validation pass and the
round succeeds. -/
theorem c1_counterexample :
    isSuccess (captureOnce 100 100
      ["START_SAVING:A", "150,0,F800", "DIM:200,200", "0,0,F800",
       "END_SAVING"]) = true := by decide

lemma paintLoop_error_of_mem_outOfRange (width height x y c : Int)
    (hout : ¬(0 ≤ x ∧ x < width ∧ 0 ≤ y ∧ y < height)) :
    ∀ (pd : List (Int × Int × Int)), (x, y, c) ∈ pd →
      ∀ buf count, paintLoop width height buf count pd = .error .invalidData := by
  intro pd
  induction pd with
  | nil => intro hmem; cases hmem
  | cons hd tl ih =>
    intro hmem buf count
    obtain ⟨px, py, pc⟩ := hd
    by_cases hin : 0 ≤ px ∧ px < width ∧ 0 ≤ py ∧ py < height
    · rcases List.mem_cons.mp hmem with heq | htl
      · rw [Prod.mk.injEq, Prod.mk.injEq] at heq
        obtain ⟨hx, hy, _⟩ := heq
        subst hx
        subst hy
        exact absurd hin hout
      · unfold paintLoop
        rw [if_pos hin]
        exact ih htl _ _
    · unfold paintLoop
      rw [if_neg hin]

lemma processPixelData_invalid_of_outOfRange (width height : Int)
    (pd : List (Int × Int × Int)) (sn : String) (x y c : Int)
    (hmem : (x, y, c) ∈ pd)
    (hout : ¬(0 ≤ x ∧ x < width ∧ 0 ≤ y ∧ y < height)) :
    processPixelData width height pd sn = .error .invalidData := by
  unfold processPixelData
  by_cases h0 : pd = [] ∨ width ≤ 0 ∨ height ≤ 0
  · rw [if_pos h0]
  · rw [if_neg h0,
        paintLoop_error_of_mem_outOfRange width height x y c hout pd hmem _ _]

/-- C1 (amended): a well-formed pixel line whose coordinates are out of
range does not fail the round at that line — samples are accumulated
unchecked and validated only when the completed frame is processed after
`END_SAVING`, against the dimensions in effect then; a sample out of range
of the completed frame's dimensions makes the round fail with
`InvalidDataError` at that processing stage. -/
theorem c1_bounds_deferred (defaultWidth defaultHeight : Int)
    (lines : List String) (f : Frame) (x y c : Int)
    (hrun : runCapture (initOnceState defaultWidth defaultHeight) lines = .ok f)
    (hmem : (x, y, c) ∈ f.samples)
    (hout : ¬(0 ≤ x ∧ x < f.width ∧ 0 ≤ y ∧ y < f.height)) :
    captureOnce defaultWidth defaultHeight lines = .error .invalidData := by
  unfold captureOnce
  rw [hrun]
  exact processPixelData_invalid_of_outOfRange _ _ _ _ x y c hmem hout

/-- Witness for C1 (amended): a round whose only sample `(150, 0)` is out of
the 100 × 100 frame fails with `InvalidDataError` at processing. -/
theorem c1_witness :
    captureOnce 100 100 ["START_SAVING:W", "150,0,F800", "END_SAVING"] =
      .error .invalidData :=
  c1_bounds_deferred 100 100 _ ⟨100, 100, [(150, 0, 63488)], "W"⟩ 150 0 63488
    (by decide) (by decide) (by decide)

lemma stepLine_preserves_dims (s : OnceState) (line : String)
    (hnd : startsWithStr line "DIM:" = false) :
    (∀ s', stepLine s line = .cont s' →
      s'.width = s.width ∧ s'.height = s.height) ∧
    (∀ f, stepLine s line = .done f →
      f.width = s.width ∧ f.height = s.height) := by
  refine ⟨?_, ?_⟩ <;> intro t ht <;> unfold stepLine at ht <;>
    (repeat' split at ht) <;>
    first
      | (cases ht; exact ⟨rfl, rfl⟩)
      | simp_all

lemma runCapture_dims :
    ∀ (lines : List String) (s : OnceState) (f : Frame),
      (∀ l ∈ lines, startsWithStr l "DIM:" = false) →
      runCapture s lines = .ok f →
      f.width = s.width ∧ f.height = s.height := by
  intro lines
  induction lines with
  | nil =>
    intro s f _ h
    cases h
  | cons l ls ih =>
    intro s f hnd h
    unfold runCapture at h
    rcases hst : stepLine s l with s' | f' | e <;> simp only [hst] at h
    · have hd := (stepLine_preserves_dims s l (hnd l (List.mem_cons_self l ls))).1 s' hst
      have hih := ih s' f (fun l' hl' => hnd l' (List.mem_cons_of_mem l hl')) h
      exact ⟨hih.1.trans hd.1, hih.2.trans hd.2⟩
    · injection h with h'
      subst h'
      exact (stepLine_preserves_dims s l (hnd l (List.mem_cons_self l ls))).2 f' hst
    · cases h

/-- C9: a session with no `DIM:` line is validated against the configured
default dimensions — the completed frame carries exactly the defaults — and
a well-formed pixel sample out of those default bounds fails the round with
`InvalidDataError`. -/
theorem c9_default_dims_fallback (defaultWidth defaultHeight : Int)
    (lines : List String) (f : Frame) (x y c : Int)
    (hnd : ∀ l ∈ lines, startsWithStr l "DIM:" = false)
    (hrun : runCapture (initOnceState defaultWidth defaultHeight) lines = .ok f)
    (hmem : (x, y, c) ∈ f.samples)
    (hout : ¬(0 ≤ x ∧ x < defaultWidth ∧ 0 ≤ y ∧ y < defaultHeight)) :
    f.width = defaultWidth ∧ f.height = defaultHeight ∧
      captureOnce defaultWidth defaultHeight lines = .error .invalidData := by
  obtain ⟨hw, hh⟩ := runCapture_dims lines _ f hnd hrun
  refine ⟨hw, hh, ?_⟩
  unfold captureOnce
  rw [hrun]
  exact processPixelData_invalid_of_outOfRange _ _ _ _ x y c hmem
    (by rw [hw, hh]; exact hout)

/-- Witness for C9: defaults 2 × 2, no `DIM:` line, sample `(5, 0)` out of
the default bounds fails with `InvalidDataError`. -/
theorem c9_witness :
    captureOnce 2 2 ["START_SAVING:Z", "5,0,F800", "END_SAVING"] =
      .error .invalidData :=
  (c9_default_dims_fallback 2 2 _ ⟨2, 2, [(5, 0, 63488)], "Z"⟩ 5 0 63488
    (by decide) (by decide) (by decide) (by decide)).2.2

lemma paintLoop_ok_buf (width height : Int) :
    ∀ (pd : List (Int × Int × Int)) buf count out,
      paintLoop width height buf count pd = .ok out →
      ∀ qx qy, out.1 (qx, qy) =
        (match lastColorAt qx qy pd with
         | some c => decodeColor c
         | none => buf (qx, qy)) := by
  intro pd
  induction pd with
  | nil =>
    intro buf count out h qx qy
    injection h with h'
    subst h'
    rfl
  | cons hd tl ih =>
    intro buf count out h qx qy
    obtain ⟨px, py, pc⟩ := hd
    unfold paintLoop at h
    by_cases hin : 0 ≤ px ∧ px < width ∧ 0 ≤ py ∧ py < height
    · rw [if_pos hin] at h
      have hb := ih _ _ _ h qx qy
      rw [hb]
      show (match lastColorAt qx qy tl with
            | some c => decodeColor c
            | none =>
              if (qx, qy) = (px, py) then decodeColor pc else buf (qx, qy)) = _
      rcases hl : lastColorAt qx qy tl with _ | c'
      · by_cases hq : (qx, qy) = ((px : Int), (py : Int))
        · simp [lastColorAt, hl, hq]
        · simp [lastColorAt, hl, hq]
      · simp [lastColorAt, hl]
    · rw [if_neg hin] at h
      cases h

lemma processPixelData_ok_shape (width height : Int)
    (pd : List (Int × Int × Int)) (sn : String) (r : ProcResult)
    (h : processPixelData width height pd sn = .ok r) :
    ∃ buf cnt,
      paintLoop width height (fun _ => (0, 0, 0)) 0 pd = .ok (buf, cnt) ∧
      r = ⟨buf, width, height, width * 2, height * 2, sn⟩ := by
  unfold processPixelData at h
  by_cases h0 : pd = [] ∨ width ≤ 0 ∨ height ≤ 0
  · rw [if_pos h0] at h
    cases h
  · rw [if_neg h0] at h
    rcases hp : paintLoop width height (fun _ => (0, 0, 0)) 0 pd
      with e | ⟨buf, cnt⟩ <;> simp only [hp] at h
    · cases h
    · by_cases hz : cnt = 0
      · rw [if_pos hz] at h
        cases h
      · rw [if_neg hz] at h
        injection h with h'
        exact ⟨buf, cnt, rfl, h'.symm⟩

/-- C8: when processing succeeds, every buffer pixel holds the decoded color
of the last sample (in received order) written at that coordinate, black if
no sample was written there — last-write-wins painting into a buffer
initialized to black — and the returned bitmap has dimensions exactly
`width * 2` by `height * 2`. -/
theorem c8_paint_and_scale (width height : Int) (pd : List (Int × Int × Int))
    (sn : String) (qx qy : Int)
    (hok : isSuccess (processPixelData width height pd sn) = true) :
    procBufAt (processPixelData width height pd sn) qx qy =
        some (colorOrBlack (lastColorAt qx qy pd)) ∧
    procScaledDims (processPixelData width height pd sn) =
        some (width * 2, height * 2) := by
  rcases hres : processPixelData width height pd sn with e | r
  · rw [hres] at hok
    simp [isSuccess] at hok
  · obtain ⟨buf, cnt, hp, hr⟩ := processPixelData_ok_shape width height pd sn r hres
    subst hr
    constructor
    · show some (buf (qx, qy)) = some (colorOrBlack (lastColorAt qx qy pd))
      have hb := paintLoop_ok_buf width height pd _ _ _ hp qx qy
      rw [show buf = ((buf, cnt) :
            (Int × Int → Int × Int × Int) × Nat).1 from rfl, hb]
      rcases hl : lastColorAt qx qy pd with _ | c <;> rfl
    · rfl

/-- Witness for C8: the spec's `DIM:2,2` session; pixel `(0, 0)` holds the
decoded red of its last write and the output bitmap is 4 × 4. -/
theorem c8_witness :
    procBufAt (captureOnce 100 100
        ["START_SAVING:ABC", "DIM:2,2", "0,0,F800", "1,1,07E0",
         "END_SAVING"]) 0 0 =
      some (colorOrBlack (lastColorAt 0 0 [(0, 0, 63488), (1, 1, 2016)])) ∧
    procScaledDims (captureOnce 100 100
        ["START_SAVING:ABC", "DIM:2,2", "0,0,F800", "1,1,07E0",
         "END_SAVING"]) = some (4, 4) := by
  have h := c8_paint_and_scale 2 2 [(0, 0, 63488), (1, 1, 2016)] "ABC" 0 0
    (by decide)
  have e : captureOnce 100 100
      ["START_SAVING:ABC", "DIM:2,2", "0,0,F800", "1,1,07E0", "END_SAVING"] =
      processPixelData 2 2 [(0, 0, 63488), (1, 1, 2016)] "ABC" := rfl
  rw [e]
  refine ⟨h.1, ?_⟩
  rw [h.2]
  norm_num

lemma paintLoop_inRange_of_ok (width height : Int) :
    ∀ (pd : List (Int × Int × Int)) buf count out,
      paintLoop width height buf count pd = .ok out →
      ∀ p ∈ pd, 0 ≤ p.1 ∧ p.1 < width ∧ 0 ≤ p.2.1 ∧ p.2.1 < height := by
  intro pd
  induction pd with
  | nil =>
    intro _ _ _ _ p hp
    cases hp
  | cons hd tl ih =>
    intro buf count out h p hp
    obtain ⟨px, py, pc⟩ := hd
    unfold paintLoop at h
    by_cases hin : 0 ≤ px ∧ px < width ∧ 0 ≤ py ∧ py < height
    · rw [if_pos hin] at h
      rcases List.mem_cons.mp hp with heq | htl
      · subst heq
        exact hin
      · exact ih _ _ _ h p htl
    · rw [if_neg hin] at h
      cases h

lemma paintLoop_ok_of_inRange (width height : Int) :
    ∀ (pd : List (Int × Int × Int)) buf count,
      (∀ p ∈ pd, 0 ≤ p.1 ∧ p.1 < width ∧ 0 ≤ p.2.1 ∧ p.2.1 < height) →
      ∃ buf' count',
        paintLoop width height buf count pd = .ok (buf', count') := by
  intro pd
  induction pd with
  | nil =>
    intro buf count _
    exact ⟨buf, count, rfl⟩
  | cons hd tl ih =>
    intro buf count hin
    obtain ⟨px, py, pc⟩ := hd
    have hh := hin (px, py, pc) (List.mem_cons_self _ _)
    obtain ⟨buf', count', hp⟩ :=
      ih (fun p => if p = (px, py) then decodeColor pc else buf p)
        (if decodeColor pc ≠ (0, 0, 0) then count + 1 else count)
        (fun p hp => hin p (List.mem_cons_of_mem _ hp))
    refine ⟨buf', count', ?_⟩
    unfold paintLoop
    rw [if_pos hh]
    exact hp

lemma paintLoop_error_kind (width height : Int) :
    ∀ (pd : List (Int × Int × Int)) buf count e,
      paintLoop width height buf count pd = .error e → e = .invalidData := by
  intro pd
  induction pd with
  | nil =>
    intro _ _ _ h
    cases h
  | cons hd tl ih =>
    intro buf count e h
    obtain ⟨px, py, pc⟩ := hd
    unfold paintLoop at h
    by_cases hin : 0 ≤ px ∧ px < width ∧ 0 ≤ py ∧ py < height
    · rw [if_pos hin] at h
      exact ih _ _ _ h
    · rw [if_neg hin] at h
      injection h with h'
      exact h'.symm

lemma paintLoop_count_mono (width height : Int) :
    ∀ (pd : List (Int × Int × Int)) buf count buf' count',
      paintLoop width height buf count pd = .ok (buf', count') →
      count ≤ count' := by
  intro pd
  induction pd with
  | nil =>
    intro buf count buf' count' h
    injection h with h'
    rw [Prod.mk.injEq] at h'
    omega
  | cons hd tl ih =>
    intro buf count buf' count' h
    obtain ⟨px, py, pc⟩ := hd
    unfold paintLoop at h
    by_cases hin : 0 ≤ px ∧ px < width ∧ 0 ≤ py ∧ py < height
    · rw [if_pos hin] at h
      have h1 := ih _ _ _ _ h
      have h2 : count ≤ (if decodeColor pc ≠ (0, 0, 0) then count + 1
          else count) := by
        split <;> omega
      omega
    · rw [if_neg hin] at h
      cases h

lemma paintLoop_count_pos (width height : Int) :
    ∀ (pd : List (Int × Int × Int)) buf count buf' count'
      (p : Int × Int × Int),
      p ∈ pd → decodeColor p.2.2 ≠ (0, 0, 0) →
      paintLoop width height buf count pd = .ok (buf', count') →
      count < count' := by
  intro pd
  induction pd with
  | nil =>
    intro _ _ _ _ p hp _ _
    cases hp
  | cons hd tl ih =>
    intro buf count buf' count' p hp hnb h
    obtain ⟨px, py, pc⟩ := hd
    unfold paintLoop at h
    by_cases hin : 0 ≤ px ∧ px < width ∧ 0 ≤ py ∧ py < height
    · rw [if_pos hin] at h
      rcases List.mem_cons.mp hp with heq | htl
      · subst heq
        have hm := paintLoop_count_mono width height tl _ _ _ _ h
        rw [if_pos hnb] at hm
        omega
      · have h1 := ih _ _ _ _ p htl hnb h
        have h2 : count ≤ (if decodeColor pc ≠ (0, 0, 0) then count + 1
            else count) := by
          split <;> omega
        omega
    · rw [if_neg hin] at h
      cases h

lemma paintLoop_count_allBlack (width height : Int) :
    ∀ (pd : List (Int × Int × Int)) buf count buf' count',
      (∀ p ∈ pd, decodeColor p.2.2 = (0, 0, 0)) →
      paintLoop width height buf count pd = .ok (buf', count') →
      count' = count := by
  intro pd
  induction pd with
  | nil =>
    intro buf count buf' count' _ h
    injection h with h'
    rw [Prod.mk.injEq] at h'
    omega
  | cons hd tl ih =>
    intro buf count buf' count' hb h
    obtain ⟨px, py, pc⟩ := hd
    unfold paintLoop at h
    by_cases hin : 0 ≤ px ∧ px < width ∧ 0 ≤ py ∧ py < height
    · rw [if_pos hin] at h
      have hbh := hb (px, py, pc) (List.mem_cons_self _ _)
      rw [if_neg (fun hn => hn hbh)] at h
      exact ih _ _ _ _ (fun p hp => hb p (List.mem_cons_of_mem _ hp)) h
    · rw [if_neg hin] at h
      cases h

/-- C4 (amended): the pipeline fails with `EmptySignatureError` iff the
sample list is non-empty, the dimensions are positive, every sample is in
range, and every sample decodes to exactly `(0, 0, 0)`.  The
`non_black_pixels` counter counts non-black writes, not final buffer
pixels: a non-black pixel later overwritten by black still counts, so an
all-black final buffer does not by itself trigger the error (see the
counterexample).  In particular a session whose only samples decode to
pure black does fail with `EmptySignatureError`. -/
theorem c4_empty_signature_iff (width height : Int)
    (pd : List (Int × Int × Int)) (sn : String) :
    processPixelData width height pd sn = .error .emptySignature ↔
      (pd ≠ [] ∧ 0 < width ∧ 0 < height ∧
       (∀ p ∈ pd, 0 ≤ p.1 ∧ p.1 < width ∧ 0 ≤ p.2.1 ∧ p.2.1 < height) ∧
       (∀ p ∈ pd, decodeColor p.2.2 = (0, 0, 0))) := by
  constructor
  · intro h
    unfold processPixelData at h
    by_cases h0 : pd = [] ∨ width ≤ 0 ∨ height ≤ 0
    · rw [if_pos h0] at h
      injection h with h'
      cases h'
    · rw [if_neg h0] at h
      push_neg at h0
      rcases hp : paintLoop width height (fun _ => (0, 0, 0)) 0 pd
        with e | ⟨buf, cnt⟩ <;> simp only [hp] at h
      · have he := paintLoop_error_kind width height pd _ _ _ hp
        subst he
        injection h with h'
        cases h'
      · by_cases hz : cnt = 0
        · refine ⟨h0.1, by omega, by omega,
            paintLoop_inRange_of_ok width height pd _ _ _ hp, ?_⟩
          intro p hpm
          by_contra hnb
          have := paintLoop_count_pos width height pd _ _ _ _ p hpm hnb hp
          omega
        · rw [if_neg hz] at h
          cases h
  · rintro ⟨hne, hw, hh, hin, hblack⟩
    unfold processPixelData
    rw [if_neg (by push_neg; exact ⟨hne, by omega, by omega⟩)]
    obtain ⟨buf', cnt', hp⟩ :=
      paintLoop_ok_of_inRange width height pd (fun _ => (0, 0, 0)) 0 hin
    simp only [hp]
    have hz : cnt' = 0 :=
      paintLoop_count_allBlack width height pd _ _ _ _ hblack hp
    rw [if_pos hz]

/-- C4 counterexample: a 1 × 1 session whose red sample at `(0, 0)` is then
overwritten by pure black yields a final buffer that is black at its only
pixel `(0, 0)` — zero non-black pixels in the resulting buffer — yet the
pipeline succeeds instead of failing with `EmptySignatureError`, because
the counter counted the overwritten red write. -/
theorem c4_counterexample :
    isSuccess (processPixelData 1 1 [(0, 0, 63488), (0, 0, 0)] "CX") = true ∧
    procBufAt (processPixelData 1 1 [(0, 0, 63488), (0, 0, 0)] "CX") 0 0 =
      some (0, 0, 0) :=
  ⟨by decide, by decide⟩

/-- Witness for C4 (amended): a session whose only sample decodes to pure
black fails with `EmptySignatureError`. -/
theorem c4_witness :
    processPixelData 1 1 [(0, 0, 0)] "WB" = .error .emptySignature :=
  (c4_empty_signature_iff 1 1 [(0, 0, 0)] "WB").mpr (by decide)

/-- C7: while capturing, a `DIM:`-prefixed line sets the session width and
height iff the remainder splits on `,` into exactly two fields that both
parse as positive integers; otherwise (wrong field count, non-numeric
field, or a value ≤ 0) the step fails with `InvalidDataError`. -/
theorem c7_dim_line (s : OnceState) (line : String)
    (hc : s.capturing = true)
    (hns : startsWithStr line "START_SAVING:" = false)
    (hne : line ≠ "END_SAVING")
    (hd : startsWithStr line "DIM:" = true) :
    (∀ a b w h, splitOnChar ',' (line.data.drop 4) = [a, b] →
        pyInt a = some w → pyInt b = some h → 0 < w → 0 < h →
        stepLine s line = .cont { s with width := w, height := h }) ∧
    ((¬ ∃ a b w h, splitOnChar ',' (line.data.drop 4) = [a, b] ∧
        pyInt a = some w ∧ pyInt b = some h ∧ 0 < w ∧ 0 < h) →
        stepLine s line = .fail .invalidData) := by
  have h0 : ¬(line = "") := by
    intro h
    subst h
    exact absurd hd (by decide)
  have hns' : ¬(startsWithStr line "START_SAVING:" = true) := by
    simp [hns]
  have hand : ¬(line = "END_SAVING" ∧ s.capturing = true) :=
    fun hx => hne hx.1
  constructor
  · intro a b w h hsp hpa hpb hw hh
    unfold stepLine
    rw [if_neg h0, if_neg hns', if_neg hand, if_pos hc, if_pos hd]
    simp only [hsp, hpa, hpb]
    rw [if_neg (by omega : ¬(w ≤ 0 ∨ h ≤ 0))]
  · intro hnex
    unfold stepLine
    rw [if_neg h0, if_neg hns', if_neg hand, if_pos hc, if_pos hd]
    rcases hsp : splitOnChar ',' (line.data.drop 4)
      with _ | ⟨a, _ | ⟨b, _ | ⟨c, t⟩⟩⟩
    · simp [hsp]
    · simp [hsp]
    · rcases hpa : pyInt a with _ | w
      · simp [hsp, hpa]
      · rcases hpb : pyInt b with _ | h
        · simp [hsp, hpa, hpb]
        · simp only [hsp, hpa, hpb]
          rw [if_pos ?_]
          by_contra hcon
          push_neg at hcon
          exact hnex ⟨a, b, w, h, hsp, hpa, hpb, by omega, by omega⟩
    · simp [hsp]

/-- Witness for C7: `DIM:3,4` in a capturing 9 × 9 state sets the
dimensions to 3 × 4. -/
theorem c7_witness :
    stepLine ⟨true, [], 9, 9, "S"⟩ "DIM:3,4" = .cont ⟨true, [], 3, 4, "S"⟩ := by
  have h := (c7_dim_line ⟨true, [], 9, 9, "S"⟩ "DIM:3,4" rfl (by decide)
    (by decide) (by decide)).1 ['3'] ['4'] 3 4 (by decide) (by decide)
    (by decide) (by norm_num) (by norm_num)
  exact h

end SigCap
